import Mathlib

/-!
# Verification of `kawazaki0/ddd_tiny_example`

Shallow embedding of the two Python modules of the repository:

* `service_layer.py` — todo domain entity (`Todo`), limit policy
  (`TodoPolicy`), in-memory repository (`InMemoryTodoRepository`) and the
  application service (`TodoService.create_todo`).
* `uow_repo.py` — generic `Entity`, `SpecificRepo` (add/get over a session
  dict) and the file-backed unit of work `FileUoW` (load/commit/rollback).

Python dicts are embedded as association lists with dict semantics
(insertion order preserved, insert of an existing key replaces in place),
exceptions as `Except`, and mutation as explicit state passing.
-/

set_option autoImplicit false
set_option linter.unusedSectionVars false

deriving instance DecidableEq for Except

namespace DDD

/-! ## Association lists with Python-dict insertion semantics -/

namespace Dict

variable {K : Type} {V : Type} [DecidableEq K]

/-- The keys of an association list, in order. -/
def keys (m : List (K × V)) : List K := m.map Prod.fst

/-- Python `d[k] = v` on a dict: replace the entry in place when the key
is present (keys are unique in a dict, so replacing the first occurrence
is replacing the only one), append at the end otherwise. -/
def insert : List (K × V) → K → V → List (K × V)
  | [], k, v => [(k, v)]
  | p :: t, k, v => if p.1 = k then (k, v) :: t else p :: insert t k v

/-- Python `d.get(k)` / `d[k]`: the value stored under `k`, if any. -/
def lookup : List (K × V) → K → Option V
  | [], _ => none
  | p :: t, k => if p.1 = k then some p.2 else lookup t k

/-- Building a dict from a list of pairs, later pairs winning
(a Python dict comprehension). -/
def ofList (l : List (K × V)) : List (K × V) :=
  l.foldl (fun m p => insert m p.1 p.2) []

end Dict

end DDD

namespace DDD

/-! ## `service_layer.py` — domain layer -/

/-- Python `uuid.uuid4()` results for `Todo.id`, abstracted to `Nat`;
freshness (global uniqueness per call) becomes an explicit hypothesis
where a claim needs it. -/
abbrev UUID := Nat

/-- The `DomainException` hierarchy: `InvalidTodoException` and
`TodoLimitReachedException`, each carrying its `str(e)` message. -/
inductive DomainException : Type where
  | invalidTodo (msg : String)
  | limitReached (msg : String)
  deriving DecidableEq, Repr

/-- The message `str(e)` of a domain exception. -/
def DomainException.message : DomainException → String
  | .invalidTodo m => m
  | .limitReached m => m

/-- The `Todo` dataclass: `title : str`, `id : UUID`. -/
structure Todo : Type where
  title : String
  id : UUID
  deriving DecidableEq, Repr

/-- Python `str.strip()`: drop leading and trailing whitespace. -/
def pyStrip (s : String) : String :=
  ⟨((s.data.dropWhile Char.isWhitespace).reverse.dropWhile
      Char.isWhitespace).reverse⟩

/-- Construction `Todo(title=..., id=...)` including `__post_init__` validation:
raises `InvalidTodoException` when the title is falsy (`not self.title`,
i.e. empty) or strips to length 0, or when it exceeds 256 characters;
otherwise the instance is produced with the title stored verbatim. -/
def Todo.make (title : String) (id : UUID) : Except DomainException Todo :=
  if title = "" ∨ (pyStrip title).length = 0 then
    .error (.invalidTodo "Title cannot be empty")
  else if title.length > 256 then
    .error (.invalidTodo "Title cannot exceed 256 characters")
  else
    .ok { title := title, id := id }

namespace TodoPolicy

/-- The constant `TodoPolicy.MAX_TODOS_PER_USER`. -/
def MAX_TODOS_PER_USER : Int := 10

/-- Policy `TodoPolicy.enforce_limit`: raises `TodoLimitReachedException` when
`current_todo_count >= 10`, otherwise returns `None`. -/
def enforce_limit (current_todo_count : Int) : Except DomainException Unit :=
  if current_todo_count ≥ MAX_TODOS_PER_USER then
    .error (.limitReached "Cannot create more todos, limit reached")
  else
    .ok ()

end TodoPolicy

/-! ## `service_layer.py` — infrastructure layer -/

/-- Repository `InMemoryTodoRepository`: `_todos` is a `dict[UUID, Todo]`. -/
structure InMemoryTodoRepository : Type where
  todos : List (UUID × Todo)
  deriving DecidableEq, Repr

namespace InMemoryTodoRepository

/-- A freshly constructed repository (`__init__`): empty dict. -/
def empty : InMemoryTodoRepository := ⟨[]⟩

/-- Method `save`: `self._todos[todo.id] = todo; return todo`. The mutation is
made explicit: the result pairs the returned todo with the new state. -/
def save (r : InMemoryTodoRepository) (todo : Todo) :
    Todo × InMemoryTodoRepository :=
  (todo, ⟨Dict.insert r.todos todo.id todo⟩)

/-- Method `count_all`: `len(self._todos)`. -/
def count_all (r : InMemoryTodoRepository) : Nat := r.todos.length

/-- Lookup `self._todos.get(id)`, used to state what the store holds. -/
def findById (r : InMemoryTodoRepository) (id : UUID) : Option Todo :=
  Dict.lookup r.todos id

end InMemoryTodoRepository

/-! ## `service_layer.py` — application layer -/

/-- Projection `TodoDTO`: the `id`, `title` pair returned by the service. -/
structure TodoDTO : Type where
  id : UUID
  title : String
  deriving DecidableEq, Repr

/-- The `ApplicationError` hierarchy: `ValidationError` and
`BusinessRuleViolation`, each carrying its message. -/
inductive ApplicationError : Type where
  | validationError (msg : String)
  | businessRuleViolation (msg : String)
  deriving DecidableEq, Repr

namespace TodoService

/-- Service method `TodoService.create_todo(title)`:

1. `count = repository.count_all()`;
2. `enforce_limit(count)`, a `TodoLimitReachedException` re-raised as
   `BusinessRuleViolation(str(e))`;
3. `Todo(title=title)`, an `InvalidTodoException` re-raised as
   `ValidationError(str(e))`;
4. `repository.save(todo)`, then the DTO of the saved todo.

The repository mutation is explicit: the result pairs the outcome with
the repository state after the call, which on either exception path is
the state the call started from (nothing is saved before step 4).
`fresh` stands for the `uuid4()` drawn inside `Todo.__init__`. -/
def create_todo (repo : InMemoryTodoRepository) (title : String)
    (fresh : UUID) :
    Except ApplicationError TodoDTO × InMemoryTodoRepository :=
  let count := repo.count_all
  match TodoPolicy.enforce_limit (count : Int) with
  | .error e => (.error (.businessRuleViolation e.message), repo)
  | .ok () =>
    match Todo.make title fresh with
    | .error e => (.error (.validationError e.message), repo)
    | .ok todo =>
      let (saved, repo') := repo.save todo
      (.ok { id := saved.id, title := saved.title }, repo')

/-- A sequence of `create_todo` calls against one repository instance,
each request carrying its title and the `uuid4()` that call would draw;
returns the per-call outcomes in order and the final repository state. -/
def run_creates : InMemoryTodoRepository → List (String × UUID) →
    List (Except ApplicationError TodoDTO) × InMemoryTodoRepository
  | repo, [] => ([], repo)
  | repo, req :: rest =>
    let step := create_todo repo req.1 req.2
    let tail := run_creates step.2 rest
    (step.1 :: tail.1, tail.2)

end TodoService

/-! ## `uow_repo.py` — entity, repository and unit of work -/

/-- The pydantic `Entity`: `attr1 : str`, `id : Optional[str] = None`. -/
structure Entity : Type where
  attr1 : String
  id : Option String := none
  deriving DecidableEq, Repr

/-- A `FileUoW` session: the `dict[str, Entity]` held in memory. -/
abbrev Session := List (String × Entity)

/-- The parsed contents of the backing JSON file: a JSON object mapping
string identifiers to `{attr1, id}` dumps, i.e. to entities. `none`
models an absent file. -/
abbrev FileState := Option (List (String × Entity))

namespace SpecificRepo

/-- Method `SpecificRepo.add`: draws `new_id = str(uuid4())` (here the explicit
argument `new_id`), sets `entity.id = new_id`, stores the entity in the
session under `new_id` and returns `new_id`. -/
def add (session : Session) (entity : Entity) (new_id : String) :
    String × Session :=
  (new_id, Dict.insert session new_id { entity with id := some new_id })

/-- Method `SpecificRepo.get`: `self.session[entity_id]`; `none` models the
`KeyError` on an unknown identifier. -/
def get (session : Session) (entity_id : String) : Option Entity :=
  Dict.lookup session entity_id

end SpecificRepo

namespace FileUoW

/-- The key `json.dumps` produces for an entity's `id` field: Python's
`None` dict key serialises as the string `"null"`. -/
def idKey : Option String → String
  | some s => s
  | none => "null"

/-- Method `FileUoW._load`: reads and parses the backing file, then replaces the
session contents (`clear` + `update`) with the parsed mapping. A
`FileNotFoundError` is swallowed: when the file is absent the session is
left exactly as it was. -/
def load (session : Session) (file : FileState) : Session :=
  match file with
  | none => session
  | some m => m

/-- Scope entry `FileUoW.__enter__`: `self.session = {}` then `self._load()`. -/
def enter (file : FileState) : Session :=
  load [] file

/-- Method `FileUoW.commit`: serialises `{e.id: e.model_dump() for e in
session.values()}` and overwrites the backing file with it. -/
def commit (session : Session) : FileState :=
  some (Dict.ofList (session.map (fun p => (idKey p.2.id, p.2))))

/-- Method `FileUoW.rollback` (also `__exit__`): `self._load()` — the session
after the call, the file untouched. -/
def rollback (session : Session) (file : FileState) : Session :=
  load session file

end FileUoW

/-! ## Unit-of-work lifecycle as a step relation (for the invariant) -/

/-- One operation available inside an open `FileUoW` scope: `repo.add`
(with the `uuid4()` string it draws), `commit`, or `rollback`. -/
inductive UoWOp : Type where
  | add (attr1 : String) (fresh : String)
  | commit
  | rollback
  deriving DecidableEq, Repr

/-- In-scope state of a unit of work: session plus backing file. -/
structure UoWState : Type where
  session : Session
  file : FileState
  deriving DecidableEq, Repr

/-- Effect of one in-scope operation on session and backing file. -/
def UoWStep (s : UoWState) : UoWOp → UoWState
  | .add attr1 fresh =>
    { s with session := (SpecificRepo.add s.session { attr1 := attr1 } fresh).2 }
  | .commit => { s with file := FileUoW.commit s.session }
  | .rollback => { s with session := FileUoW.rollback s.session s.file }

/-- Opening a unit of work on a backing file and running a list of
in-scope operations. -/
def UoWRun (file : FileState) (ops : List UoWOp) : UoWState :=
  ops.foldl UoWStep { session := FileUoW.enter file, file := file }

/-- The session invariant of the spec: every entity held in the session
mapping has a non-null id equal to its mapping key. -/
def SessionInv (session : Session) : Prop :=
  ∀ p ∈ session, p.2.id = some p.1

/-- The same invariant on the backing file (vacuous for an absent file):
every stored entity dump has `id` equal to its JSON key. -/
def FileInv : FileState → Prop
  | none => True
  | some m => SessionInv m

/-! ## Concrete fixtures used by witnesses -/

/-- A repository instance already holding ten todos. -/
def fullRepo : InMemoryTodoRepository :=
  ⟨(List.range 10).map (fun i => (i, { title := "t", id := i }))⟩

/-- Eleven create requests with valid titles and pairwise distinct fresh
identifiers. -/
def elevenRequests : List (String × UUID) :=
  [("a", 0), ("b", 1), ("c", 2), ("d", 3), ("e", 4), ("f", 5), ("g", 6),
   ("h", 7), ("i", 8), ("j", 9), ("k", 10)]

/-- Modelled from the spec (for comparison with the code's
`FileUoW.rollback`): "the contents of the backing file", a missing file
silently treated as an empty initial state. -/
def specFileContents : FileState → Session
  | none => []
  | some m => m

end DDD

/-! # Theorems -/

namespace DDD

namespace Dict

variable {K : Type} {V : Type} [DecidableEq K]

@[simp] theorem keys_nil : keys ([] : List (K × V)) = [] := rfl

@[simp] theorem keys_cons (p : K × V) (m : List (K × V)) :
    keys (p :: m) = p.1 :: keys m := rfl

theorem keys_insert (m : List (K × V)) (k : K) (v : V) :
    keys (insert m k v) = if k ∈ keys m then keys m else keys m ++ [k] := by
  induction m with
  | nil => simp [insert]
  | cons p t ih =>
    simp only [insert]
    by_cases h : p.1 = k
    · have hmem : k ∈ keys (p :: t) := by simp [keys_cons, h]
      rw [if_pos h, if_pos hmem, keys_cons, keys_cons, h]
    · have h2 : ¬k = p.1 := fun hh => h hh.symm
      rw [if_neg h, keys_cons, ih]
      by_cases ht : k ∈ keys t
      · rw [if_pos ht, if_pos (by simp [keys_cons, ht]), keys_cons]
      · rw [if_neg ht, if_neg (by simp [keys_cons, h2, ht]), keys_cons,
          List.cons_append]

theorem length_insert (m : List (K × V)) (k : K) (v : V) :
    (insert m k v).length =
      if k ∈ keys m then m.length else m.length + 1 := by
  induction m with
  | nil => simp [insert]
  | cons p t ih =>
    simp only [insert]
    by_cases h : p.1 = k
    · have hmem : k ∈ keys (p :: t) := by simp [keys_cons, h]
      rw [if_pos h, if_pos hmem]
      simp
    · have h2 : ¬k = p.1 := fun hh => h hh.symm
      rw [if_neg h, List.length_cons, ih]
      by_cases ht : k ∈ keys t
      · rw [if_pos ht, if_pos (by simp [keys_cons, ht])]
        simp
      · rw [if_neg ht, if_neg (by simp [keys_cons, h2, ht])]
        simp

@[simp] theorem lookup_nil (k : K) : lookup ([] : List (K × V)) k = none :=
  rfl

@[simp] theorem lookup_cons (p : K × V) (m : List (K × V)) (k : K) :
    lookup (p :: m) k = if p.1 = k then some p.2 else lookup m k := rfl

theorem lookup_insert_self (m : List (K × V)) (k : K) (v : V) :
    lookup (insert m k v) k = some v := by
  induction m with
  | nil => simp [insert]
  | cons p t ih =>
    by_cases h : p.1 = k <;> simp [insert, h, ih]

theorem lookup_insert_of_ne (m : List (K × V)) (k k' : K) (v : V)
    (h : k ≠ k') : lookup (insert m k v) k' = lookup m k' := by
  induction m with
  | nil => simp [insert, lookup_cons, h]
  | cons p t ih =>
    simp only [insert]
    by_cases hp : p.1 = k
    · rw [if_pos hp, lookup_cons, lookup_cons, if_neg h,
        if_neg (fun hh => h (hp.symm.trans hh))]
    · rw [if_neg hp, lookup_cons, lookup_cons, ih]

theorem lookup_eq_none_of_not_mem (m : List (K × V)) (k : K)
    (h : k ∉ keys m) : lookup m k = none := by
  induction m with
  | nil => rfl
  | cons p t ih =>
    rw [lookup_cons, if_neg (fun hp => h (by simp [keys_cons, hp]))]
    exact ih (fun ht => h (by simp [keys_cons, ht]))

theorem lookup_isSome_of_mem (m : List (K × V)) (k : K)
    (h : k ∈ keys m) : (lookup m k).isSome := by
  induction m with
  | nil => simp [keys] at h
  | cons p t ih =>
    rw [lookup_cons]
    by_cases hp : p.1 = k
    · simp [hp]
    · rw [if_neg hp]
      exact ih (by simpa [keys_cons, Ne.symm hp] using h)

@[simp] theorem ofList_append_single (l : List (K × V)) (p : K × V) :
    ofList (l ++ [p]) = insert (ofList l) p.1 p.2 := by
  simp [ofList]

theorem lookup_ofList_append_single (l : List (K × V)) (k : K) (v : V) :
    lookup (ofList (l ++ [(k, v)])) k = some v := by
  rw [ofList_append_single]
  exact lookup_insert_self _ _ _

theorem insert_insert_self (m : List (K × V)) (k : K) (v : V) :
    insert (insert m k v) k v = insert m k v := by
  induction m with
  | nil => simp [insert]
  | cons p t ih =>
    by_cases h : p.1 = k <;> simp [insert, h, ih]

theorem insert_of_not_mem (m : List (K × V)) (k : K) (v : V)
    (h : k ∉ keys m) : insert m k v = m ++ [(k, v)] := by
  induction m with
  | nil => simp [insert]
  | cons p t ih =>
    have hp : ¬p.1 = k := fun hh => h (by simp [keys_cons, hh])
    rw [insert, if_neg hp, List.cons_append,
      ih (fun ht => h (by simp [keys_cons, ht]))]

end Dict

/-! ## Helper lemmas: todo validation, policy and service -/

theorem pyStrip_empty : pyStrip "" = "" := rfl

theorem todo_make_eq_ok (title : String) (id : UUID)
    (hv : (pyStrip title).length ≠ 0 ∧ title.length ≤ 256) :
    Todo.make title id = .ok { title := title, id := id } := by
  have h1 : ¬(title = "" ∨ (pyStrip title).length = 0) := by
    rintro (h | h)
    · exact hv.1 (by rw [h, pyStrip_empty]; rfl)
    · exact hv.1 h
  have h2 : ¬(title.length > 256) := not_lt.mpr hv.2
  unfold Todo.make
  rw [if_neg h1, if_neg h2]

theorem todo_make_eq_error (title : String) (id : UUID)
    (h : (pyStrip title).length = 0 ∨ 256 < title.length) :
    ∃ msg, Todo.make title id = .error (.invalidTodo msg) := by
  unfold Todo.make
  by_cases h1 : title = "" ∨ (pyStrip title).length = 0
  · exact ⟨_, by rw [if_pos h1]⟩
  · have h2 : title.length > 256 := by
      rcases h with h | h
      · exact absurd (Or.inr h) h1
      · exact h
    exact ⟨_, by rw [if_neg h1, if_pos h2]⟩

theorem enforce_limit_eq_error (c : Int) (h : 10 ≤ c) :
    TodoPolicy.enforce_limit c =
      .error (.limitReached "Cannot create more todos, limit reached") := by
  unfold TodoPolicy.enforce_limit TodoPolicy.MAX_TODOS_PER_USER
  rw [if_pos h]

theorem enforce_limit_eq_ok (c : Int) (h : c < 10) :
    TodoPolicy.enforce_limit c = .ok () := by
  unfold TodoPolicy.enforce_limit TodoPolicy.MAX_TODOS_PER_USER
  rw [if_neg (not_le.mpr h)]

theorem create_todo_of_limit (r : InMemoryTodoRepository) (title : String)
    (fresh : UUID) (h : 10 ≤ r.count_all) :
    TodoService.create_todo r title fresh =
      (.error (.businessRuleViolation
        "Cannot create more todos, limit reached"), r) := by
  have henf := enforce_limit_eq_error (r.count_all : Int)
    (by exact_mod_cast h)
  simp only [TodoService.create_todo, henf, DomainException.message]

theorem create_todo_of_ok (r : InMemoryTodoRepository) (title : String)
    (fresh : UUID) (hc : r.count_all < 10)
    (hv : (pyStrip title).length ≠ 0 ∧ title.length ≤ 256) :
    TodoService.create_todo r title fresh =
      (.ok { id := fresh, title := title },
       ⟨Dict.insert r.todos fresh { title := title, id := fresh }⟩) := by
  have henf := enforce_limit_eq_ok (r.count_all : Int)
    (by exact_mod_cast hc)
  have hmk := todo_make_eq_ok title fresh hv
  simp only [TodoService.create_todo, henf, hmk,
    InMemoryTodoRepository.save]

theorem create_todo_of_invalid (r : InMemoryTodoRepository) (title : String)
    (fresh : UUID) (hc : r.count_all < 10)
    (hv : (pyStrip title).length = 0 ∨ 256 < title.length) :
    ∃ msg, TodoService.create_todo r title fresh =
      (.error (.validationError msg), r) := by
  have henf := enforce_limit_eq_ok (r.count_all : Int)
    (by exact_mod_cast hc)
  obtain ⟨msg, hmk⟩ := todo_make_eq_error title fresh hv
  exact ⟨msg, by
    simp only [TodoService.create_todo, henf, hmk, DomainException.message]⟩


/-! ## Claims C1, C3, C8, C9, C10 — todo service path -/

/-- C8: `enforce_limit(current_count)` fails with `LimitReached`
exactly when `current_count >= 10` and succeeds with no effect otherwise;
being a Lean function of `current_count` alone, the result depends only
on the input. -/
theorem c8_enforce_limit_threshold (c : Int) :
    (TodoPolicy.enforce_limit c =
        .error (.limitReached "Cannot create more todos, limit reached") ↔
      10 ≤ c) ∧
    (TodoPolicy.enforce_limit c = .ok () ↔ c < 10) := by
  by_cases h : 10 ≤ c
  · rw [enforce_limit_eq_error c h]
    simp [h, not_lt.mpr h]
  · rw [enforce_limit_eq_ok c (not_le.mp h)]
    simp [h, not_le.mp h]

/-- C3: `Todo` construction succeeds with the stored title equal to
the input exactly when the title is non-empty after stripping whitespace
and has at most 256 characters; otherwise it fails with `InvalidTodo`
and no instance is produced. -/
theorem c3_todo_title_validation (title : String) (id : UUID) :
    ((∃ t, Todo.make title id = .ok t ∧ t.title = title) ↔
      ((pyStrip title).length ≠ 0 ∧ title.length ≤ 256)) ∧
    ((pyStrip title).length = 0 ∨ 256 < title.length →
      ∃ msg, Todo.make title id = .error (.invalidTodo msg)) := by
  constructor
  · constructor
    · rintro ⟨t, hok, -⟩
      by_cases hv : (pyStrip title).length ≠ 0 ∧ title.length ≤ 256
      · exact hv
      · exfalso
        have h : (pyStrip title).length = 0 ∨ 256 < title.length := by
          by_cases h1 : (pyStrip title).length = 0
          · exact Or.inl h1
          · push_neg at hv
            exact Or.inr (hv h1)
        obtain ⟨msg, herr⟩ := todo_make_eq_error title id h
        rw [hok] at herr
        simp at herr
    · intro hv
      exact ⟨_, todo_make_eq_ok title id hv, rfl⟩
  · exact todo_make_eq_error title id

/-- Witness for C3: a valid title is stored verbatim, a whitespace-only
title is rejected with `InvalidTodo`. -/
theorem c3_witness :
    (∃ t, Todo.make "Buy milk" 0 = .ok t ∧ t.title = "Buy milk") ∧
    (∃ msg, Todo.make "   " 1 = .error (.invalidTodo msg)) :=
  ⟨(c3_todo_title_validation "Buy milk" 0).1.mpr (by decide),
   (c3_todo_title_validation "   " 1).2 (by decide)⟩

/-- C1: with at least 10 entities held, `create_todo` reports the
limit violation as `BusinessRuleViolation` for every title including
invalid ones — the policy check runs before entity construction, so a
`ValidationError` is never raised. -/
theorem c1_limit_checked_before_validation (r : InMemoryTodoRepository)
    (title : String) (fresh : UUID) (h : 10 ≤ r.count_all) :
    (TodoService.create_todo r title fresh).1 =
      .error (.businessRuleViolation
        "Cannot create more todos, limit reached") := by
  rw [create_todo_of_limit r title fresh h]

/-- Witness for C1: a full store plus an invalid (empty) title still
yields the business-rule failure. -/
theorem c1_witness :
    10 ≤ fullRepo.count_all ∧
    (TodoService.create_todo fullRepo "" 99).1 =
      .error (.businessRuleViolation
        "Cannot create more todos, limit reached") :=
  ⟨by decide, c1_limit_checked_before_validation fullRepo "" 99 (by decide)⟩

/-- C10: whenever `create_todo` raises, the repository state is
unchanged — no entity was saved and `count_all` afterwards equals
`count_all` before the failed call. -/
theorem c10_error_leaves_repository_unchanged (r : InMemoryTodoRepository)
    (title : String) (fresh : UUID) (e : ApplicationError)
    (h : (TodoService.create_todo r title fresh).1 = .error e) :
    (TodoService.create_todo r title fresh).2 = r ∧
    (TodoService.create_todo r title fresh).2.count_all = r.count_all := by
  have hrepo : (TodoService.create_todo r title fresh).2 = r := by
    unfold TodoService.create_todo at h ⊢
    cases henf : TodoPolicy.enforce_limit (r.count_all : Int) with
    | error d => simp [henf]
    | ok u =>
      cases u
      cases hmk : Todo.make title fresh with
      | error d => simp [henf, hmk]
      | ok t => simp [henf, hmk, InMemoryTodoRepository.save] at h
  exact ⟨hrepo, by rw [hrepo]⟩

/-- Witness for C10: a failing call (empty title) leaves the fresh
repository empty. -/
theorem c10_witness :
    (TodoService.create_todo InMemoryTodoRepository.empty "" 5).1 =
      .error (.validationError "Title cannot be empty") ∧
    (TodoService.create_todo InMemoryTodoRepository.empty "" 5).2 =
      InMemoryTodoRepository.empty :=
  ⟨by decide,
   (c10_error_leaves_repository_unchanged InMemoryTodoRepository.empty ""
     5 (.validationError "Title cannot be empty") (by decide)).1⟩

/-- C9: `save` is an idempotent upsert keyed by the entity id —
saving the same entity twice equals saving it once, the saved id maps to
the new entity, other ids are untouched, the count is unchanged when the
id was already present and grows by one otherwise — and `count_all`
equals the number of held identifiers. -/
theorem c9_save_idempotent_upsert (r : InMemoryTodoRepository) (t : Todo) :
    ((r.save t).2.save t).2 = (r.save t).2 ∧
    (r.save t).2.findById t.id = some t ∧
    (∀ u, u ≠ t.id → (r.save t).2.findById u = r.findById u) ∧
    (r.save t).2.count_all =
      (if t.id ∈ Dict.keys r.todos then r.count_all else r.count_all + 1) ∧
    r.count_all = (Dict.keys r.todos).length := by
  refine ⟨?_, ?_, ?_, ?_, ?_⟩
  · simp [InMemoryTodoRepository.save, Dict.insert_insert_self]
  · simp [InMemoryTodoRepository.save, InMemoryTodoRepository.findById,
      Dict.lookup_insert_self]
  · intro u hu
    simp [InMemoryTodoRepository.save, InMemoryTodoRepository.findById,
      Dict.lookup_insert_of_ne _ _ _ _ (fun hh => hu hh.symm)]
  · simp [InMemoryTodoRepository.save, InMemoryTodoRepository.count_all,
      Dict.length_insert]
  · simp [InMemoryTodoRepository.count_all, Dict.keys]

/-- Witness for C9 on a concrete repository, entity and unrelated id. -/
theorem c9_witness :
    ((InMemoryTodoRepository.empty.save { title := "a", id := 3 }).2.save
        { title := "a", id := 3 }).2 =
      (InMemoryTodoRepository.empty.save { title := "a", id := 3 }).2 ∧
    (InMemoryTodoRepository.empty.save
        { title := "a", id := 3 }).2.findById 7 =
      InMemoryTodoRepository.empty.findById 7 :=
  ⟨(c9_save_idempotent_upsert InMemoryTodoRepository.empty
      { title := "a", id := 3 }).1,
   (c9_save_idempotent_upsert InMemoryTodoRepository.empty
      { title := "a", id := 3 }).2.2.1 7 (by decide)⟩


/-! ## Claim C5 — a sequence of creations against one repository -/

theorem run_creates_results (reqs : List (String × UUID))
    (r : InMemoryTodoRepository)
    (hval : ∀ p ∈ reqs, (pyStrip p.1).length ≠ 0 ∧ p.1.length ≤ 256)
    (hnodup : (reqs.map Prod.snd).Nodup)
    (hfresh : ∀ p ∈ reqs, p.2 ∉ Dict.keys r.todos) :
    ∀ i, i < reqs.length →
      ((r.count_all + i < 10 → ∃ dto,
          (TodoService.run_creates r reqs).1.getD i
            (.error (.validationError "")) = .ok dto) ∧
       (10 ≤ r.count_all + i →
          (TodoService.run_creates r reqs).1.getD i
            (.error (.validationError "")) =
            .error (.businessRuleViolation
              "Cannot create more todos, limit reached"))) := by
  induction reqs generalizing r with
  | nil => intro i hi; simp at hi
  | cons p rest ih =>
    intro i hi
    have hval2 : ∀ q ∈ rest, (pyStrip q.1).length ≠ 0 ∧ q.1.length ≤ 256 :=
      fun q hq => hval q (List.mem_cons_of_mem p hq)
    have hnodup2 : (rest.map Prod.snd).Nodup :=
      (List.nodup_cons.mp (by simpa using hnodup)).2
    by_cases hc : r.count_all < 10
    · have hstep := create_todo_of_ok r p.1 p.2 hc
        (hval p (List.mem_cons_self p rest))
      have hnotmem : p.2 ∉ Dict.keys r.todos :=
        hfresh p (List.mem_cons_self p rest)
      have hcount : (InMemoryTodoRepository.mk
          (Dict.insert r.todos p.2 { title := p.1, id := p.2 })).count_all =
          r.count_all + 1 := by
        simp [InMemoryTodoRepository.count_all, Dict.length_insert, hnotmem]
      have hkeys : Dict.keys
            (Dict.insert r.todos p.2 { title := p.1, id := p.2 }) =
          Dict.keys r.todos ++ [p.2] := by
        rw [Dict.keys_insert]
        exact if_neg hnotmem
      have hfresh2 : ∀ q ∈ rest, q.2 ∉ Dict.keys
          (Dict.insert r.todos p.2 { title := p.1, id := p.2 }) := by
        intro q hq
        rw [hkeys]
        intro hmem
        rcases List.mem_append.mp hmem with hm | hm
        · exact hfresh q (List.mem_cons_of_mem p hq) hm
        · have hqp : q.2 = p.2 := by simpa using hm
          have hnd : p.2 ∉ rest.map Prod.snd :=
            (List.nodup_cons.mp (by simpa using hnodup)).1
          exact hnd (hqp ▸ List.mem_map_of_mem Prod.snd hq)
      cases i with
      | zero =>
        refine ⟨fun _ => ⟨{ id := p.2, title := p.1 }, ?_⟩,
          fun habs => absurd habs (by omega)⟩
        simp [TodoService.run_creates, hstep]
      | succ j =>
        have hj : j < rest.length := by simpa using hi
        have hres := ih (InMemoryTodoRepository.mk
            (Dict.insert r.todos p.2 { title := p.1, id := p.2 }))
          hval2 hnodup2 hfresh2 j hj
        rw [hcount] at hres
        constructor
        · intro hlt
          obtain ⟨dto, hdto⟩ := hres.1 (by omega)
          exact ⟨dto, by simpa [TodoService.run_creates, hstep] using hdto⟩
        · intro hge
          have h2 := hres.2 (by omega)
          simpa [TodoService.run_creates, hstep] using h2
    · have h10 : 10 ≤ r.count_all := not_lt.mp hc
      have hstep := create_todo_of_limit r p.1 p.2 h10
      have hfresh2 : ∀ q ∈ rest, q.2 ∉ Dict.keys r.todos :=
        fun q hq => hfresh q (List.mem_cons_of_mem p hq)
      cases i with
      | zero =>
        refine ⟨fun habs => absurd habs (by omega), fun _ => ?_⟩
        simp [TodoService.run_creates, hstep]
      | succ j =>
        have hj : j < rest.length := by simpa using hi
        have hres := ih r hval2 hnodup2 hfresh2 j hj
        refine ⟨fun habs => absurd habs (by omega), fun _ => ?_⟩
        have h2 := hres.2 (by omega)
        simpa [TodoService.run_creates, hstep] using h2

/-- C5: against a single fresh repository instance, with valid titles
and pairwise distinct generated ids, every one of the first ten
`create_todo` calls succeeds, and every later call — made while ten
entities are held — fails with `BusinessRuleViolation` wrapping the
`LimitReached` message. -/
theorem c5_first_ten_succeed_then_limit (reqs : List (String × UUID))
    (hval : ∀ p ∈ reqs, (pyStrip p.1).length ≠ 0 ∧ p.1.length ≤ 256)
    (hfreshIds : (reqs.map Prod.snd).Nodup) :
    ∀ i, i < reqs.length →
      ((i < 10 → ∃ dto,
          (TodoService.run_creates InMemoryTodoRepository.empty
            reqs).1.getD i (.error (.validationError "")) = .ok dto) ∧
       (10 ≤ i →
          (TodoService.run_creates InMemoryTodoRepository.empty
            reqs).1.getD i (.error (.validationError "")) =
          .error (.businessRuleViolation
            "Cannot create more todos, limit reached"))) := by
  intro i hi
  have h := run_creates_results reqs InMemoryTodoRepository.empty hval
    hfreshIds
    (by intro q hq; simp [InMemoryTodoRepository.empty, Dict.keys]) i hi
  simpa [InMemoryTodoRepository.count_all, InMemoryTodoRepository.empty]
    using h

/-- Witness for C5: eleven concrete requests — the first call succeeds,
the eleventh fails with the limit violation. -/
theorem c5_witness :
    (∃ dto, (TodoService.run_creates InMemoryTodoRepository.empty
        elevenRequests).1.getD 0 (.error (.validationError "")) =
      .ok dto) ∧
    (TodoService.run_creates InMemoryTodoRepository.empty
        elevenRequests).1.getD 10 (.error (.validationError "")) =
      .error (.businessRuleViolation
        "Cannot create more todos, limit reached") :=
  ⟨(c5_first_ten_succeed_then_limit elevenRequests (by decide) (by decide)
      0 (by decide)).1 (by decide),
   (c5_first_ten_succeed_then_limit elevenRequests (by decide) (by decide)
      10 (by decide)).2 (by decide)⟩

/-! ## Claims C2, C4, C6, C7 — file-backed unit of work -/

/-- C4: `add(entity)`, `commit()`, then reopening a new unit of work
on the same path yields `get(id)` returning an entity whose `attr1`
equals the original entity's `attr1`. The assigned id is fresh for the
session, as `uuid4()` guarantees. -/
theorem c4_add_commit_reopen_roundtrip (session : Session) (e : Entity)
    (new_id : String) (hfresh : new_id ∉ Dict.keys session) :
    ∃ e2, SpecificRepo.get
        (FileUoW.enter (FileUoW.commit
          (SpecificRepo.add session e new_id).2))
        (SpecificRepo.add session e new_id).1 = some e2 ∧
      e2.attr1 = e.attr1 := by
  refine ⟨{ attr1 := e.attr1, id := some new_id }, ?_, rfl⟩
  have hadd : (SpecificRepo.add session e new_id).2 =
      session ++ [(new_id, { attr1 := e.attr1, id := some new_id })] := by
    unfold SpecificRepo.add
    exact Dict.insert_of_not_mem session new_id _ hfresh
  rw [hadd]
  unfold FileUoW.commit FileUoW.enter FileUoW.load SpecificRepo.get
  rw [List.map_append]
  exact Dict.lookup_ofList_append_single _ new_id _

/-- Witness for C4 on an empty session and a concrete entity. -/
theorem c4_witness :
    ∃ e2, SpecificRepo.get
        (FileUoW.enter (FileUoW.commit
          (SpecificRepo.add [] { attr1 := "xaxa" } "u1").2))
        (SpecificRepo.add [] { attr1 := "xaxa" } "u1").1 = some e2 ∧
      e2.attr1 = "xaxa" :=
  c4_add_commit_reopen_roundtrip [] { attr1 := "xaxa" } "u1" (by decide)

/-- C6: `add(entity)` in an open unit of work, scope exit without
`commit` (which only calls rollback and never writes the file), then
reopening the same path yields a session in which the assigned id is
absent — the id being fresh, i.e. not a key of the old file contents. -/
theorem c6_uncommitted_add_is_lost (file : FileState)
    (attr1 fresh : String)
    (hfresh : fresh ∉ Dict.keys (FileUoW.enter file)) :
    (UoWStep (UoWRun file [UoWOp.add attr1 fresh]) UoWOp.rollback).file =
      file ∧
    SpecificRepo.get
      (FileUoW.enter
        (UoWStep (UoWRun file [UoWOp.add attr1 fresh])
          UoWOp.rollback).file)
      fresh = none := by
  refine ⟨rfl, ?_⟩
  show SpecificRepo.get (FileUoW.enter file) fresh = none
  exact Dict.lookup_eq_none_of_not_mem _ _ hfresh

/-- Witness for C6 on a concrete one-entry backing file. -/
theorem c6_witness :
    (UoWStep (UoWRun (some [("a", { attr1 := "x", id := some "a" })])
        [UoWOp.add "y" "b"]) UoWOp.rollback).file =
      some [("a", { attr1 := "x", id := some "a" })] ∧
    SpecificRepo.get
      (FileUoW.enter
        (UoWStep (UoWRun (some [("a", { attr1 := "x", id := some "a" })])
          [UoWOp.add "y" "b"]) UoWOp.rollback).file)
      "b" = none :=
  c6_uncommitted_add_is_lost (some [("a", { attr1 := "x", id := some "a" })])
    "y" "b" (by decide)

/-- Counterexample to **C2** as stated: with a missing backing file and a
session holding one uncommitted entity, `rollback` does not make the
session equal to the (empty, per the spec's reading of a missing file)
backing-file contents — the `FileNotFoundError` is swallowed before the
session is cleared, so the in-memory change survives. -/
theorem c2_counterexample :
    ¬(FileUoW.rollback [("a", { attr1 := "x", id := some "a" })] none =
      specFileContents none) := by decide

/-- C2 (amended): when the backing file exists, `rollback` (also the
implicit call on scope exit) replaces the in-memory session with the
file contents, discarding all in-memory changes since the last commit
(or since open); when the backing file is missing, `rollback` leaves the
session unchanged instead. The file itself is never written. -/
theorem c2_rollback_reloads_from_file (s : Session) (f : FileState) :
    (∀ m, f = some m → FileUoW.rollback s f = m) ∧
    (f = none → FileUoW.rollback s f = s) := by
  constructor
  · rintro m rfl
    rfl
  · rintro rfl
    rfl

/-- Witness for the amended C2: an existing file wins over the session;
a missing file leaves the session as it was. -/
theorem c2_witness :
    FileUoW.rollback [("a", { attr1 := "x", id := some "a" })]
        (some [("b", { attr1 := "y", id := some "b" })]) =
      [("b", { attr1 := "y", id := some "b" })] ∧
    FileUoW.rollback [("a", { attr1 := "x", id := some "a" })] none =
      [("a", { attr1 := "x", id := some "a" })] :=
  ⟨(c2_rollback_reloads_from_file
      [("a", { attr1 := "x", id := some "a" })]
      (some [("b", { attr1 := "y", id := some "b" })])).1 _ rfl,
   (c2_rollback_reloads_from_file
      [("a", { attr1 := "x", id := some "a" })] none).2 rfl⟩

/-! ### C7 — the session invariant through the lifecycle -/

theorem sessionInv_insert (m : Session) (k : String) (v : Entity)
    (hm : SessionInv m) (hv : v.id = some k) :
    SessionInv (Dict.insert m k v) := by
  induction m with
  | nil =>
    intro p hp
    simp [Dict.insert] at hp
    rw [hp]
    exact hv
  | cons q t ih =>
    intro p hp
    by_cases h : q.1 = k
    · rw [Dict.insert, if_pos h] at hp
      rcases List.mem_cons.mp hp with h1 | h2
      · rw [h1]; exact hv
      · exact hm p (List.mem_cons_of_mem q h2)
    · rw [Dict.insert, if_neg h] at hp
      rcases List.mem_cons.mp hp with h1 | h2
      · rw [h1]; exact hm q (List.mem_cons_self q t)
      · exact ih (fun x hx => hm x (List.mem_cons_of_mem q hx)) p h2

theorem sessionInv_foldl_insert (l : Session) (acc : Session)
    (hl : ∀ p ∈ l, p.2.id = some p.1) (hacc : SessionInv acc) :
    SessionInv (l.foldl (fun m p => Dict.insert m p.1 p.2) acc) := by
  induction l generalizing acc with
  | nil => exact hacc
  | cons q t ih =>
    exact ih _ (fun p hp => hl p (List.mem_cons_of_mem q hp))
      (sessionInv_insert acc q.1 q.2 hacc (hl q (List.mem_cons_self q t)))

theorem fileInv_commit (s : Session) (hs : SessionInv s) :
    FileInv (FileUoW.commit s) := by
  show SessionInv (Dict.ofList (s.map (fun p => (FileUoW.idKey p.2.id, p.2))))
  apply sessionInv_foldl_insert
  · intro p hp
    rcases List.mem_map.mp hp with ⟨q, hq, hpq⟩
    have hid := hs q hq
    rw [← hpq]
    simp [hid, FileUoW.idKey]
  · intro p hp
    simp at hp

theorem sessionInv_enter (file : FileState) (h : FileInv file) :
    SessionInv (FileUoW.enter file) := by
  cases file with
  | none =>
    intro p hp
    simp [FileUoW.enter, FileUoW.load] at hp
  | some m => exact h

theorem uow_step_inv (s : UoWState) (op : UoWOp)
    (h1 : SessionInv s.session) (h2 : FileInv s.file) :
    SessionInv (UoWStep s op).session ∧ FileInv (UoWStep s op).file := by
  cases op with
  | add attr1 fresh =>
    refine ⟨?_, h2⟩
    exact sessionInv_insert s.session fresh _ h1 rfl
  | commit => exact ⟨h1, fileInv_commit s.session h1⟩
  | rollback =>
    refine ⟨?_, h2⟩
    show SessionInv (FileUoW.load s.session s.file)
    cases hf : s.file with
    | none => exact h1
    | some m =>
      rw [hf] at h2
      exact h2

theorem uow_foldl_inv (ops : List UoWOp) (s : UoWState)
    (h1 : SessionInv s.session) (h2 : FileInv s.file) :
    SessionInv (ops.foldl UoWStep s).session ∧
    FileInv (ops.foldl UoWStep s).file := by
  induction ops generalizing s with
  | nil => exact ⟨h1, h2⟩
  | cons op rest ih =>
    have h := uow_step_inv s op h1 h2
    exact ih (UoWStep s op) h.1 h.2

/-- C7: starting from a backing file satisfying the file-side
invariant (in particular a missing file, or any file a previous
lifecycle committed), every session state reachable through open/load,
add, commit and rollback holds only entities whose non-null id equals
their mapping key — and every file state written keeps the invariant
too. -/
theorem c7_session_invariant_reachable (file : FileState)
    (ops : List UoWOp) (hfile : FileInv file) :
    SessionInv (UoWRun file ops).session ∧
    FileInv (UoWRun file ops).file := by
  unfold UoWRun
  exact uow_foldl_inv ops
    { session := FileUoW.enter file, file := file }
    (sessionInv_enter file hfile) hfile

/-- Witness for C7: a fresh (missing) file and a concrete add, commit,
rollback sequence. -/
theorem c7_witness :
    SessionInv (UoWRun none
      [UoWOp.add "x" "u1", UoWOp.commit, UoWOp.rollback]).session ∧
    FileInv (UoWRun none
      [UoWOp.add "x" "u1", UoWOp.commit, UoWOp.rollback]).file :=
  c7_session_invariant_reachable none
    [UoWOp.add "x" "u1", UoWOp.commit, UoWOp.rollback] True.intro

end DDD

